import Mathlib

/-!
# HTS-payments: payment-event normalisation (backend/events.js)

A shallow embedding of the helpers and handlers of `src/events.js`.

Modelling conventions.

* JavaScript values are the data values a webhook payload or a directory record can hold:
  `undefined`, `null`, booleans, numbers, strings, plain objects and arrays.  Property reads
  see own data properties only (members inherited from a prototype are outside the model).
* Numbers are an arbitrary carrier `N` with the operations the code performs on them
  (`JSHost`): addition, truthiness, `toFixed(2)`, `ToString`, and three laws (zero is falsy,
  `x + 0` is `x`, the empty string is its own lower case).  Every general theorem holds for
  every such carrier.  Concrete evaluations use the carrier `Int`, read as a count of
  hundredths.
* Strings are Lean strings, processed as lists of characters (one character per code unit).
  `toUpperCase` and `toLowerCase` are host operations as well.
* A JavaScript expression that can throw returns `Except JSErr _`; the calls to the
  collaborators (directory, order service, secret store, HTTP) are functions supplied by an
  environment, each of which can answer or raise.
-/

set_option linter.unusedSectionVars false

namespace HTS

/-! ## Host operations and values -/

/-- Operations of the JavaScript host that the code uses and that the embedding leaves to the
carrier: arithmetic and formatting of numbers, and the case mappings of strings. -/
class JSHost (N : Type) where
  /-- The number denoted by a non-negative integer literal (`0`, a length). -/
  ofNat : Nat → N
  /-- Addition, `a + b` on numbers. -/
  add : N → N → N
  /-- ToBoolean on a number: false for zero and NaN. -/
  truthy : N → Bool
  /-- The method call `n.toFixed(2)`. -/
  toFixed2 : N → String
  /-- ToString of a number. -/
  toStr : N → String
  /-- The number as `JSON.stringify` prints it. -/
  toJSON : N → String
  /-- The method call `s.toUpperCase()`. -/
  toUpperCase : String → String
  /-- The method call `s.toLowerCase()`. -/
  toLowerCase : String → String
  /-- Zero is falsy. -/
  truthy_zero : truthy (ofNat 0) = false
  /-- Adding zero changes nothing: `x + 0` is `x` (numbers up to `===`; the running total
  of `sumPayments` starts from `0` and is never the negative zero). -/
  add_zero : ∀ x, add x (ofNat 0) = x
  /-- The empty string has no letters to map: `''.toLowerCase()` is `''`. -/
  lower_empty : toLowerCase "" = ""

/-- A JavaScript data value. -/
inductive JSVal (N : Type) where
  | undefined : JSVal N
  | null : JSVal N
  | bool (b : Bool) : JSVal N
  | num (n : N) : JSVal N
  | str (s : String) : JSVal N
  | obj (fields : List (String × JSVal N)) : JSVal N
  | arr (items : List (JSVal N)) : JSVal N

/-- An exception value: a TypeError of the language, or a value raised by a collaborator. -/
inductive JSErr where
  | typeError (msg : String) : JSErr
  | raised (msg : String) : JSErr
deriving DecidableEq, Repr

namespace JSVal

variable {N : Type} [JSHost N]

/-- ToBoolean. -/
def truthy : JSVal N → Bool
  | .undefined => false
  | .null => false
  | .bool b => b
  | .num n => JSHost.truthy n
  | .str s => s.data != []
  | .obj _ => true
  | .arr _ => true

/-- The value is `undefined` or `null`. -/
def nullish : JSVal N → Bool
  | .undefined => true
  | .null => true
  | _ => false

/-- The test `typeof v === 'number'`. -/
def isNumber : JSVal N → Bool
  | .num _ => true
  | _ => false

/-- The test `typeof v === 'string'`. -/
def isString : JSVal N → Bool
  | .str _ => true
  | _ => false

/-- The test `typeof v === 'object'` (true of `null`, objects and arrays). -/
def isObjectType : JSVal N → Bool
  | .null => true
  | .obj _ => true
  | .arr _ => true
  | _ => false

/-- The test `v === undefined`. -/
def isUndefined : JSVal N → Bool
  | .undefined => true
  | _ => false

/-- The test `v === s` for a string `s`. -/
def isStr (v : JSVal N) (s : String) : Bool :=
  match v with
  | .str t => t == s
  | _ => false

/-- A parameter with a default value: the default replaces `undefined` only. -/
def orDefault (v d : JSVal N) : JSVal N :=
  match v with
  | .undefined => d
  | w => w

/-- The expression `a || b`. -/
def or (a b : JSVal N) : JSVal N := if a.truthy then a else b

/-- The expression `a ?? b`. -/
def coalesce (a b : JSVal N) : JSVal N := if a.nullish then b else a

/-- First value bound to key `k` in a field list. -/
def lookupField (k : String) : List (String × JSVal N) → JSVal N
  | [] => .undefined
  | (k2, v) :: rest => if k2 = k then v else lookupField k rest

/-- Value of a decimal digit. -/
def digitVal (c : Char) : Option Nat :=
  if 48 ≤ c.toNat ∧ c.toNat ≤ 57 then some (c.toNat - 48) else none

/-- Reads a run of decimal digits. -/
def parseDigits : List Char → Nat → Option Nat
  | [], acc => some acc
  | c :: cs, acc =>
    match digitVal c with
    | some d => parseDigits cs (acc * 10 + d)
    | none => none

/-- A property key that is a canonical array index: decimal digits without a leading zero. -/
def parseIndex (k : String) : Option Nat :=
  match k.data with
  | [] => none
  | [c] => digitVal c
  | c :: cs => if c = '0' then none else parseDigits (c :: cs) 0

/-- The own data property `o[k]` of a value that is neither `undefined` nor `null`. -/
def prop (o : JSVal N) (k : String) : JSVal N :=
  match o with
  | .obj fields => lookupField k fields
  | .arr items =>
    if k = "length" then .num (JSHost.ofNat items.length)
    else match parseIndex k with
      | some i => items.getD i .undefined
      | none => .undefined
  | .str s =>
    if k = "length" then .num (JSHost.ofNat s.data.length)
    else match parseIndex k with
      | some i => match s.data.get? i with
        | some c => .str (String.mk [c])
        | none => .undefined
      | none => .undefined
  | _ => .undefined

/-- The member access `o.k` or `o[k]`: a TypeError on `undefined` and `null`. -/
def get (o : JSVal N) (k : String) : Except JSErr (JSVal N) :=
  if o.nullish then .error (.typeError ("Cannot read properties of undefined or null: " ++ k))
  else .ok (o.prop k)

/-- The optional chain `o?.k` or `o?.[k]`. -/
def getOpt (o : JSVal N) (k : String) : JSVal N :=
  if o.nullish then .undefined else o.prop k

mutual
/-- ToString of a data value. -/
def toStr : JSVal N → String
  | .undefined => "undefined"
  | .null => "null"
  | .bool b => if b then "true" else "false"
  | .num n => JSHost.toStr n
  | .str s => s
  | .obj _ => "[object Object]"
  | .arr xs => joinItems "," xs
/-- The method call `items.join(sep)`. -/
def joinItems (sep : String) : List (JSVal N) → String
  | [] => ""
  | x :: rest => elemStr x ++ joinTail sep rest
/-- The items after the first one of a `join`, each preceded by the separator. -/
def joinTail (sep : String) : List (JSVal N) → String
  | [] => ""
  | x :: rest => sep ++ elemStr x ++ joinTail sep rest
/-- The text of one item in a `join`: empty for `undefined` and `null`. -/
def elemStr : JSVal N → String
  | .undefined => ""
  | .null => ""
  | .bool b => if b then "true" else "false"
  | .num n => JSHost.toStr n
  | .str s => s
  | .obj _ => "[object Object]"
  | .arr xs => joinItems "," xs
end

end JSVal

/-! ## Strings -/

/-- The method call `s.split(sep)` for a one-character separator. -/
def splitChars (sep : Char) : List Char → List (List Char)
  | [] => [[]]
  | c :: cs =>
    if c = sep then [] :: splitChars sep cs
    else match splitChars sep cs with
      | [] => [[c]]
      | w :: ws => (c :: w) :: ws

/-- The method call `path.split('.')`, as strings. -/
def splitDots (path : String) : List String :=
  (splitChars '.' path.data).map String.mk

/-- The method call `words.join(sep)` on strings, for a one-character separator. -/
def joinChars (sep : Char) : List (List Char) → List Char
  | [] => []
  | w :: ws =>
    match ws with
    | [] => w
    | _ :: _ => w ++ sep :: joinChars sep ws

/-- White space of the language: what `\s` matches and what `trim` removes. -/
def isJsSpace (c : Char) : Bool :=
  let n := c.toNat
  n == 9 || n == 10 || n == 11 || n == 12 || n == 13 || n == 32 || n == 0xA0 || n == 0x1680 ||
    (Nat.ble 0x2000 n && Nat.ble n 0x200A) || n == 0x2028 || n == 0x2029 || n == 0x202F ||
    n == 0x205F || n == 0x3000 || n == 0xFEFF

/-- The method call `s.trim()`, on characters. -/
def trimChars (cs : List Char) : List Char :=
  ((cs.dropWhile isJsSpace).reverse.dropWhile isJsSpace).reverse

/-- The method call `s.trim()`. -/
def jsTrim (s : String) : String := String.mk (trimChars s.data)

/-- The method call `s.replace(/[class]+/g, r)`: every maximal run of characters of the class
`p` is replaced by `r`.  The flag tells that the previous character belongs to a run. -/
def replaceRuns (p : Char → Bool) (r : List Char) : Bool → List Char → List Char
  | _, [] => []
  | inRun, c :: cs =>
    if p c then (if inRun then replaceRuns p r true cs else r ++ replaceRuns p r true cs)
    else c :: replaceRuns p r false cs

/-- What a run of digits becomes under `replace(/\d{2,}/g, f)`: runs shorter than two are not
matched. -/
def flushDigits (f : List Char → List Char) (run : List Char) : List Char :=
  if 2 ≤ run.length then f run else run

/-- The method call `s.replace(/\d{2,}/g, f)`: every maximal run of two or more digits is
replaced by `f` of the run.  The first argument is the run of digits read so far. -/
def replaceDigitRuns (f : List Char → List Char) : List Char → List Char → List Char
  | run, [] => flushDigits f run
  | run, c :: cs =>
    if c.isDigit then replaceDigitRuns f (run ++ [c]) cs
    else flushDigits f run ++ c :: replaceDigitRuns f [] cs

/-- The test `/pat/.test(s)` for a literal pattern: `pat` starts `s`. -/
def startsWithChars : List Char → List Char → Bool
  | [], _ => true
  | _ :: _, [] => false
  | a :: as, c :: cs => a == c && startsWithChars as cs

/-- The test `/pat/.test(s)` for a literal pattern: `pat` occurs in `s`. -/
def containsChars (pat : List Char) : List Char → Bool
  | [] => startsWithChars pat []
  | c :: cs => startsWithChars pat (c :: cs) || containsChars pat cs

/-! ## Field resolver -/

section FieldResolver

variable {N : Type} [JSHost N]

/-- The callback of the `reduce` in `getPath`:
`(o, k) => (o && o[k] !== undefined ? o[k] : undefined)`. -/
def getPathStep (o : JSVal N) (k : String) : Except JSErr (JSVal N) :=
  if o.truthy then
    match o.get k with
    | .error e => .error e
    | .ok .undefined => .ok .undefined
    | .ok _ => o.get k
  else .ok .undefined

/-- The reduction of `getPath` over the keys of a path. -/
def getPathKeys (obj : JSVal N) (keys : List String) : Except JSErr (JSVal N) :=
  keys.foldlM getPathStep obj

/-- Source function `getPath(obj, path)`. -/
def getPath (obj : JSVal N) (path : String) : Except JSErr (JSVal N) :=
  getPathKeys obj (splitDots path)

/-- The test `v !== undefined && v !== null && v !== ''` of `firstOf`. -/
def isPresent : JSVal N → Bool
  | .undefined => false
  | .null => false
  | .str s => s.data != []
  | _ => true

/-- Source function `firstOf(obj, paths, fallback)`. -/
def firstOf (obj : JSVal N) : List String → JSVal N → Except JSErr (JSVal N)
  | [], fallback => .ok fallback
  | p :: ps, fallback =>
    match getPath obj p with
    | .error e => .error e
    | .ok v => if isPresent v then .ok v else firstOf obj ps fallback

end FieldResolver

/-! ## Formatting and names -/

section Helpers

variable {N : Type} [JSHost N]

/-- Source function `fmtMoney(amount, currency)`. -/
def fmtMoney (amount currency : JSVal N) : String :=
  match amount with
  | .num n => jsTrim (JSHost.toFixed2 n ++ " " ++ (currency.or (.str "")).toStr)
  | _ =>
    match amount.truthy, amount.prop "value" with
    | true, .num v =>
      jsTrim (JSHost.toFixed2 v ++ " " ++
        (((amount.prop "currency").or currency).or (.str "")).toStr)
    | _, _ =>
      if amount.truthy && !(amount.prop "amount").nullish then
        jsTrim ((amount.prop "amount").toStr ++ " " ++
          (((amount.prop "currency").or currency).or (.str "")).toStr)
      else if currency.truthy then "0.00 " ++ currency.toStr else "—"

/-- The callback of the `map` in `titleCaseWords`:
`w => (w ? (w[0].toUpperCase() + w.slice(1)) : '')`. -/
def capWord (N : Type) [JSHost N] : List Char → List Char
  | [] => []
  | c :: rest => (JSHost.toUpperCase N (String.mk [c])).data ++ rest

/-- Source function `titleCaseWords(str)`. -/
def titleCaseWords (N : Type) [JSHost N] (str : String) : String :=
  String.mk (joinChars ' '
    ((splitChars ' ' (trimChars (replaceRuns isJsSpace [' '] false str.data))).map (capWord N)))

/-- The class `[._\-]` of `nameFromEmail`. -/
def isNameSep (c : Char) : Bool := c == '.' || c == '_' || c == '-'

/-- Source function `nameFromEmail(email)`. -/
def nameFromEmail (email : JSVal N) : String :=
  let e : JSVal N := email.orDefault (.str "")
  let loc : List Char := match splitChars '@' e.toStr.data with
    | [] => []
    | w :: _ => w
  let cleaned := replaceDigitRuns id [] (replaceRuns isNameSep [' '] false loc)
  let t := titleCaseWords N (String.mk cleaned)
  if t.data != [] then t else "—"

/-- The pair `{ amount, currency }` returned by the monetary helpers. -/
structure Money (N : Type) where
  amount : JSVal N
  currency : JSVal N

/-- The amount read from one payment entry:
`p?.amount?.amount ?? p?.amount?.value ?? p?.amount ?? 0`. -/
def entryAmount (p : JSVal N) : JSVal N :=
  ((((p.getOpt "amount").getOpt "amount").coalesce ((p.getOpt "amount").getOpt "value")).coalesce
    (p.getOpt "amount")).coalesce (.num (JSHost.ofNat 0))

/-- The currency read from one payment entry:
`p?.amount?.currency || p?.amount?.currencyCode || p?.currency || p?.currencyCode`. -/
def entryCurrency (p : JSVal N) : JSVal N :=
  ((((p.getOpt "amount").getOpt "currency").or ((p.getOpt "amount").getOpt "currencyCode")).or
    (p.getOpt "currency")).or (p.getOpt "currencyCode")

/-- The loop of `sumPayments` over the entries, from a running total and currency. -/
def sumLoop : List (JSVal N) → N → JSVal N → N × JSVal N
  | [], total, currency => (total, currency)
  | p :: rest, total, currency =>
    sumLoop rest
      (match entryAmount p with
        | .num a => JSHost.add total a
        | _ => total)
      (currency.or (entryCurrency p))

/-- Source function `sumPayments(inv)`. -/
def sumPayments (inv : JSVal N) : Money N :=
  match ((inv.getOpt "payments").or (inv.getOpt "paymentHistory")).or (.arr []) with
  | .arr (p :: ps) =>
    let r := sumLoop (p :: ps) (JSHost.ofNat 0) .undefined
    ⟨if JSHost.truthy r.1 then .num r.1 else .undefined, r.2⟩
  | _ => ⟨.undefined, .undefined⟩

end Helpers

/-! ## Effects and collaborators -/

/-- The directory service, `contacts` of `wix-crm-backend`: each request answers or raises. -/
structure Directory (N : Type) where
  /-- The request `contacts.queryContacts().eq('info.emails.email', email).find()`. -/
  queryByEmail : JSVal N → Except JSErr (JSVal N)
  /-- The request `contacts.getContact(cid)`. -/
  getContact : JSVal N → Except JSErr (JSVal N)

/-- The argument object of `alertPayment`. -/
structure Alert (N : Type) where
  source : JSVal N
  name : JSVal N
  email : JSVal N
  plan : JSVal N
  amount : JSVal N
  currency : JSVal N
  id : JSVal N

/-- The answer of the HTTP client to a request. -/
structure Response where
  ok : Bool
  status : Nat
  /-- The awaited call `res.text()`. -/
  text : Except JSErr String

/-- An observable action of one invocation. -/
inductive Effect (N : Type) where
  /-- A query of the directory by email. -/
  | dirQuery (email : JSVal N) : Effect N
  /-- A fetch of a directory record by contact id. -/
  | dirFetch (cid : JSVal N) : Effect N
  /-- A fetch of a pricing-plans order. -/
  | orderFetch (orderId : JSVal N) : Effect N
  /-- A call of `alertPayment`. -/
  | dispatch (alert : Alert N) : Effect N
  /-- A read of the secret store. -/
  | secretRead (key : String) : Effect N
  /-- A request sent to the messaging endpoint. -/
  | httpPost (url body : String) : Effect N
  /-- A line written with `console.warn` or `console.error`. -/
  | log (level msg : String) : Effect N

/-- The collaborators of one invocation. -/
structure Env (N : Type) where
  directory : Directory N
  /-- The request `pricingOrders.getOrder(orderId)`. -/
  getOrder : JSVal N → Except JSErr (JSVal N)
  /-- The request `getSecret(key)`. -/
  getSecret : String → Except JSErr (JSVal N)
  /-- The request `fetch(url, options)`, by url and body. -/
  fetch : String → String → Except JSErr Response

/-- The run of an asynchronous function: the effects it performed, in order, and how it ended
(a value, or the exception it propagates). -/
structure Run (N : Type) (α : Type) where
  effects : List (Effect N)
  result : Except JSErr α

namespace Run

variable {N : Type} {α β : Type}

/-- A run that returns without effect. -/
def ret (a : α) : Run N α := ⟨[], .ok a⟩

/-- A pure expression that can throw. -/
def ofExcept (x : Except JSErr α) : Run N α := ⟨[], x⟩

/-- An awaited call of a collaborator: the effect is recorded, the answer is a value or an
exception. -/
def call (e : Effect N) (x : Except JSErr α) : Run N α := ⟨[e], x⟩

/-- One effect that cannot fail. -/
def emit (e : Effect N) : Run N Unit := ⟨[e], .ok ()⟩

/-- Sequencing: the continuation runs when the first run returns. -/
def andThen (r : Run N α) (f : α → Run N β) : Run N β :=
  match r.result with
  | .ok a => ⟨r.effects ++ (f a).effects, (f a).result⟩
  | .error e => ⟨r.effects, .error e⟩

/-- The statement `try { body } catch (e) { handler }`. -/
def tryCatch (body : Run N α) (handler : JSErr → Run N α) : Run N α :=
  match body.result with
  | .ok _ => body
  | .error e => ⟨body.effects ++ (handler e).effects, (handler e).result⟩

/-- The calls of `alertPayment` among the effects, in order. -/
def dispatches : List (Effect N) → List (Alert N)
  | [] => []
  | .dispatch a :: rest => a :: dispatches rest
  | _ :: rest => dispatches rest

/-- The number of directory requests among the effects. -/
def dirRequests : List (Effect N) → Nat
  | [] => 0
  | .dirQuery _ :: rest => dirRequests rest + 1
  | .dirFetch _ :: rest => dirRequests rest + 1
  | _ :: rest => dirRequests rest

end Run

/-! ## Buyer identity resolver -/

section Buyer

variable {N : Type} [JSHost N]

/-- The local variables of `resolveBuyer` that the directory steps update. -/
structure BuyerState (N : Type) where
  first : JSVal N
  last : JSVal N
  email : JSVal N

/-- The value `buyer.name && typeof buyer.name === 'string' ? buyer.name : ''`. -/
def ownName (buyer : JSVal N) : JSVal N :=
  if (buyer.prop "name").truthy && (buyer.prop "name").isString then buyer.prop "name"
  else .str ""

/-- The values of `first`, `last` and `email` read from the candidate itself
(lines 81 to 83 of the source). -/
def ownState (buyer : JSVal N) : BuyerState N where
  first := ((buyer.prop "firstName").or ((buyer.prop "name").getOpt "first")).or (.str "")
  last := ((buyer.prop "lastName").or ((buyer.prop "name").getOpt "last")).or (.str "")
  email := (buyer.prop "email").or ((buyer.prop "emails").getOpt "0")

/-- The value `buyer.contactId || buyer.contact?.contactId || buyer.contactID`. -/
def ownContactId (buyer : JSVal N) : JSVal N :=
  ((buyer.prop "contactId").or ((buyer.prop "contact").getOpt "contactId")).or
    (buyer.prop "contactID")

/-- The test `!first && !last && !name`. -/
def noNameMaterial (st : BuyerState N) (name : JSVal N) : Bool :=
  !st.first.truthy && !st.last.truthy && !name.truthy

/-- The first name of a directory record: `c?.info?.name?.first || c?.name?.first`. -/
def contactFirst (c : JSVal N) : JSVal N :=
  (((c.getOpt "info").getOpt "name").getOpt "first").or ((c.getOpt "name").getOpt "first")

/-- The last name of a directory record: `c?.info?.name?.last || c?.name?.last`. -/
def contactLast (c : JSVal N) : JSVal N :=
  (((c.getOpt "info").getOpt "name").getOpt "last").or ((c.getOpt "name").getOpt "last")

/-- The email of a directory record: `c?.primaryEmail?.email || c?.emails?.[0]?.email`. -/
def contactEmail (c : JSVal N) : JSVal N :=
  ((c.getOpt "primaryEmail").getOpt "email").or (((c.getOpt "emails").getOpt "0").getOpt "email")

/-- The body of the first `try` of `resolveBuyer`, after the query answered `q`. -/
def applyMatch (st : BuyerState N) (q : JSVal N) : BuyerState N :=
  let c := (q.getOpt "items").getOpt "0"
  if c.truthy then
    { first := (contactFirst c).or st.first
      last := (contactLast c).or st.last
      email := (contactEmail c).or st.email }
  else st

/-- The lookup by email (lines 88 to 100 of the source). -/
def queryStep (dir : Directory N) (st : BuyerState N) (name contactId : JSVal N) :
    Run N (BuyerState N) :=
  if noNameMaterial st name && st.email.truthy && !contactId.truthy then
    Run.tryCatch
      ((Run.call (.dirQuery st.email) (dir.queryByEmail st.email)).andThen fun q =>
        Run.ret (applyMatch st q))
      (fun _ => (Run.emit (.log "warn" "contacts.queryContacts by email failed:")).andThen
        fun _ => Run.ret st)
  else Run.ret st

/-- The body of the second `try` of `resolveBuyer`, after the fetch answered `c`. -/
def applyContact (st : BuyerState N) (c : JSVal N) : BuyerState N where
  first := (st.first.or (contactFirst c)).or (.str "")
  last := (st.last.or (contactLast c)).or (.str "")
  email := (st.email.or (contactEmail c)).or (.str "")

/-- The fetch by contact id (lines 103 to 115 of the source). -/
def fetchStep (dir : Directory N) (st : BuyerState N) (name contactId : JSVal N) :
    Run N (BuyerState N) :=
  if noNameMaterial st name || !st.email.truthy then
    if contactId.truthy then
      Run.tryCatch
        ((Run.call (.dirFetch contactId) (dir.getContact contactId)).andThen fun c =>
          Run.ret (applyContact st c))
        (fun _ => (Run.emit (.log "warn" "contacts.getContact failed:")).andThen
          fun _ => Run.ret st)
    else Run.ret st
  else Run.ret st

/-- The record `{ name, email }` returned by `resolveBuyer`. -/
structure Resolved (N : Type) where
  name : JSVal N
  email : JSVal N

/-- The value of `display` (line 117 of the source):
`[first, last].filter(Boolean).join(' ') || name || (email ? nameFromEmail(email) : '—')`. -/
def displayName (st : BuyerState N) (name : JSVal N) : JSVal N :=
  ((JSVal.str (JSVal.joinItems " " ([st.first, st.last].filter JSVal.truthy))).or name).or
    (if st.email.truthy then .str (nameFromEmail st.email) else .str "—")

/-- The returned record (line 118 of the source). -/
def finish (st : BuyerState N) (name : JSVal N) : Resolved N where
  name := displayName st name
  email := st.email.or (.str "—")

/-- Source function `resolveBuyer(buyer)`.  The parameter defaults to `{}` when it is
`undefined`; every member access before the first request is on `buyer` itself, so the
function throws a TypeError exactly when `buyer` is `null`. -/
def resolveBuyer (dir : Directory N) (buyerArg : JSVal N) : Run N (Resolved N) :=
  let buyer : JSVal N := buyerArg.orDefault (.obj [])
  if buyer.nullish then
    Run.ofExcept (.error (.typeError "Cannot read properties of null (reading firstName)"))
  else
    (queryStep dir (ownState buyer) (ownName buyer) (ownContactId buyer)).andThen fun st1 =>
    (fetchStep dir st1 (ownName buyer) (ownContactId buyer)).andThen fun st2 =>
    Run.ret (finish st2 (ownName buyer))

end Buyer

/-! ## Alert dispatcher -/

section Dispatcher

variable {N : Type} [JSHost N]

/-- A hexadecimal digit. -/
def hexDigit (n : Nat) : Char :=
  if n < 10 then Char.ofNat (48 + n) else Char.ofNat (87 + n)

/-- One character inside a JSON string literal. -/
def jsonChar (c : Char) : List Char :=
  if c = '"' then ['\\', '"']
  else if c = '\\' then ['\\', '\\']
  else if c.toNat = 8 then ['\\', 'b']
  else if c.toNat = 9 then ['\\', 't']
  else if c.toNat = 10 then ['\\', 'n']
  else if c.toNat = 12 then ['\\', 'f']
  else if c.toNat = 13 then ['\\', 'r']
  else if c.toNat < 32 then ['\\', 'u', '0', '0', hexDigit (c.toNat / 16), hexDigit (c.toNat % 16)]
  else [c]

/-- A string as a JSON string literal. -/
def jsonQuote (s : String) : String :=
  String.mk ('"' :: (s.data.map jsonChar).flatten ++ ['"'])

mutual
/-- The text `JSON.stringify(v)` of a data value (an `undefined` item of an array prints as
`null`). -/
def jsonText : JSVal N → String
  | .undefined => "null"
  | .null => "null"
  | .bool b => if b then "true" else "false"
  | .num n => JSHost.toJSON n
  | .str s => jsonQuote s
  | .obj fields => "\x7b" ++ jsonFields true fields ++ "\x7d"
  | .arr items => "[" ++ jsonItems true items ++ "]"
/-- The members of an object in `JSON.stringify`: a member whose value is `undefined` is
left out.  The flag tells that no member has been printed yet. -/
def jsonFields : Bool → List (String × JSVal N) → String
  | _, [] => ""
  | isFirst, (_, .undefined) :: rest => jsonFields isFirst rest
  | isFirst, (k, v) :: rest =>
    (if isFirst then "" else ",") ++ jsonQuote k ++ ":" ++ jsonText v ++ jsonFields false rest
/-- The items of an array in `JSON.stringify`. -/
def jsonItems : Bool → List (JSVal N) → String
  | _, [] => ""
  | isFirst, v :: rest => (if isFirst then "" else ",") ++ jsonText v ++ jsonItems false rest
end

/-- The call `JSON.stringify(v)`: `undefined` for `undefined`, the text otherwise. -/
def jsonStringify (v : JSVal N) : JSVal N :=
  match v with
  | .undefined => .undefined
  | w => .str (jsonText w)

/-- The method call `s.replace(/c/g, r)` for one character `c`. -/
def replaceChar (c : Char) (r : List Char) : List Char → List Char
  | [] => []
  | x :: xs => if x = c then r ++ replaceChar c r xs else x :: replaceChar c r xs

/-- Source function `escHtml(s)`: the parameter defaults to `''`, an object or array is
printed by `JSON.stringify` first. -/
def escHtml (s : JSVal N) : String :=
  let s1 : JSVal N := s.orDefault (.str "")
  let s2 : JSVal N := if s1.truthy && s1.isObjectType then .str (jsonText s1) else s1
  String.mk (replaceChar '>' "&gt;".data (replaceChar '<' "&lt;".data
    (replaceChar '&' "&amp;".data s2.toStr.data)))

/-- The message text built by `alertPayment`. -/
def alertText (a : Alert N) : String :=
  "<b>✅ Payment received (" ++ escHtml a.source ++ ")</b>\n" ++
  "🌐 <b>Site:</b> hts20.net\n" ++
  "👤 <b>Name:</b> " ++ escHtml (a.name.or (.str "—")) ++ "\n" ++
  "📧 <b>Email:</b> " ++ escHtml (a.email.or (.str "—")) ++ "\n" ++
  "🗒️ <b>Plan:</b> " ++ escHtml (a.plan.or (.str "—")) ++ "\n" ++
  "💵 <b>Amount:</b> " ++ escHtml (N := N) (.str (fmtMoney a.amount a.currency)) ++ "\n" ++
  "🧾 <b>ID:</b> " ++ escHtml (a.id.or (.str "—"))

/-- Source function `sendTelegram(text)`. -/
def sendTelegram (env : Env N) (text : String) : Run N Unit :=
  (Run.call (.secretRead "TELEGRAM_BOT_TOKEN") (env.getSecret "TELEGRAM_BOT_TOKEN")).andThen
    fun token =>
  (Run.call (.secretRead "TELEGRAM_CHAT_ID") (env.getSecret "TELEGRAM_CHAT_ID")).andThen
    fun chatId =>
  let url := "https://api.telegram.org/bot" ++ token.toStr ++ "/sendMessage"
  let body := jsonText (N := N) (.obj [("chat_id", chatId), ("text", .str text),
    ("parse_mode", .str "HTML"), ("disable_web_page_preview", .bool true)])
  (Run.call (.httpPost url body) (env.fetch url body)).andThen fun res =>
  if res.ok then Run.ret ()
  else (Run.ofExcept res.text).andThen fun _ =>
    Run.emit (.log "error" "Telegram sendMessage failed")

/-- Source function `alertPayment(alert)`. -/
def alertPayment (env : Env N) (a : Alert N) : Run N Unit :=
  (Run.emit (.dispatch a)).andThen fun _ => sendTelegram env (alertText a)

end Dispatcher

/-! ## Event normalisers -/

section Handlers

variable {N : Type} [JSHost N]

/-- The status test of `wixPay_onPaymentUpdate`:
`!status || /(fail|cancel)/.test(status)` on the lower-cased status. -/
def skipStatus (status : String) : Bool :=
  status.data == [] || containsChars "fail".data status.data ||
    containsChars "cancel".data status.data

/-- The value `String(event?.status || '').toLowerCase()`. -/
def payStatus (event : JSVal N) : String :=
  JSHost.toLowerCase N ((event.getOpt "status").or (.str "")).toStr

/-- The body of the `try` of `wixPay_onPaymentUpdate`. -/
def payBody (env : Env N) (event : JSVal N) : Run N Unit :=
  if skipStatus (payStatus event) then Run.ret ()
  else
    let p : JSVal N := (event.getOpt "payment").or (.obj [])
    (Run.ofExcept (p.get "userInfo")).andThen fun userInfo =>
    (Run.ofExcept (if userInfo.truthy then .ok userInfo else p.get "buyer")).andThen fun b =>
    (resolveBuyer env.directory (b.or (.obj []))).andThen fun buyer =>
    let amount := (p.getOpt "amount").or (p.getOpt "price")
    let currency := p.getOpt "currency"
    (Run.ofExcept (event.get "status")).andThen fun status =>
    (Run.ofExcept (p.get "id")).andThen fun pid =>
    (Run.ofExcept (if pid.truthy then .ok pid else p.get "paymentId")).andThen fun id =>
    alertPayment env
      { source := .str ("Pay API: " ++ (status.or (.str "Successful")).toStr)
        name := buyer.name, email := buyer.email, plan := .str "—"
        amount := amount, currency := currency, id := id }

/-- Source function `wixPay_onPaymentUpdate(event)`. -/
def wixPay_onPaymentUpdate (env : Env N) (event : JSVal N) : Run N Unit :=
  Run.tryCatch (payBody env event)
    (fun _ => Run.emit (.log "error" "wixPay_onPaymentUpdate error"))

/-- Source constant `DISABLE_PLANS_PURCHASE_ALERTS`. -/
def DISABLE_PLANS_PURCHASE_ALERTS : Bool := true

/-- Source constant `REQUIRE_EMAIL_FOR_RENEWALS`. -/
def REQUIRE_EMAIL_FOR_RENEWALS : Bool := true

/-- Source function `getPlanNameFromOrder(order)`: the parameter defaults to `{}`, a member
access on `null` throws. -/
def getPlanNameFromOrder (orderArg : JSVal N) : Except JSErr (JSVal N) :=
  let order : JSVal N := orderArg.orDefault (.obj [])
  if order.nullish then .error (.typeError "Cannot read properties of null (reading plan)")
  else
    .ok ((((((order.prop "plan").getOpt "name").or (order.prop "planName")).or
      ((order.prop "plan").getOpt "title")).or ((order.prop "plan").getOpt "planName")).or
        (.str "—"))

/-- The value `total` of `getAmountFromOrder`, from the order and its pricing block:
`pricing.totalPrice || pricing.total || order.price || order.amount`. -/
def orderTotal (order pricing : JSVal N) : JSVal N :=
  (((pricing.prop "totalPrice").or (pricing.prop "total")).or (order.prop "price")).or
    (order.prop "amount")

/-- Source function `getAmountFromOrder(order)`: the parameter defaults to `{}`, a member
access on `null` throws. -/
def getAmountFromOrder (orderArg : JSVal N) : Except JSErr (Money N) :=
  let order : JSVal N := orderArg.orDefault (.obj [])
  if order.nullish then .error (.typeError "Cannot read properties of null (reading pricing)")
  else
    let pricing : JSVal N := ((order.prop "pricing").or (order.prop "priceDetails")).or (.obj [])
    let total : JSVal N := orderTotal order pricing
    let currency : JSVal N :=
      ((total.getOpt "currency").or (pricing.getOpt "currency")).or (order.prop "currency")
    let amount : JSVal N :=
      if total.isNumber then total
      else if (total.getOpt "amount").isNumber then total.getOpt "amount"
      else total.getOpt "value"
    .ok ⟨amount, currency⟩

/-- Source function `wixPaidPlans_onOrderPurchased(event)`. -/
def wixPaidPlans_onOrderPurchased (_env : Env N) (event : JSVal N) : Run N Unit :=
  Run.tryCatch
    (if DISABLE_PLANS_PURCHASE_ALERTS then
      Run.emit (.log "warn" ("Suppressed Pricing Plans purchase alert for order " ++
        ((((event.getOpt "order").getOpt "id").or (event.getOpt "orderId")).or
          (event.getOpt "id")).toStr))
    else Run.ret ())
    (fun _ => Run.emit (.log "error" "wixPaidPlans_onOrderPurchased error"))

/-- The order of a renewal cycle (lines 175 to 183 of the source): the one of the event,
else the one fetched by id; a failed fetch is logged and leaves the order as it was. -/
def cycleOrder (env : Env N) (event orderId : JSVal N) : Run N (JSVal N) :=
  if !(event.getOpt "order").truthy && orderId.truthy then
    Run.tryCatch (Run.call (.orderFetch orderId) (env.getOrder orderId))
      (fun _ => (Run.emit (.log "warn" "pricingOrders.getOrder failed:")).andThen
        fun _ => Run.ret (event.getOpt "order"))
  else Run.ret (event.getOpt "order")

/-- The argument of `resolveBuyer` in a renewal cycle: `order?.buyer || event?.buyer || {}`. -/
def cycleBuyerArg (event order : JSVal N) : JSVal N :=
  ((order.getOpt "buyer").or (event.getOpt "buyer")).or (.obj [])

/-- The test `hasEmail && hasAmount` of a renewal cycle. -/
def cycleComplete (buyer : Resolved N) (money : Money N) : Bool :=
  (buyer.email.truthy && !buyer.email.isStr "—") && !money.amount.nullish

/-- The body of the `try` of `handlePricingPlansCycle`. -/
def cycleBody (env : Env N) (event : JSVal N) : Run N Unit :=
  (Run.ofExcept (firstOf event ["orderId", "order.id", "id"] .undefined)).andThen fun orderId =>
  (cycleOrder env event orderId).andThen fun order =>
  (resolveBuyer env.directory (cycleBuyerArg event order)).andThen fun buyer =>
  (Run.ofExcept (getPlanNameFromOrder (order.or (.obj [])))).andThen fun plan =>
  (Run.ofExcept (getAmountFromOrder (order.or (.obj [])))).andThen fun money =>
  if REQUIRE_EMAIL_FOR_RENEWALS && !cycleComplete buyer money then
    Run.emit (.log "warn" "Skipping renewal alert (requires email + amount).")
  else
    alertPayment env
      { source := .str "Pricing Plans (Renewal)"
        name := buyer.name, email := buyer.email, plan := plan
        amount := money.amount, currency := money.currency
        id := orderId.or (order.getOpt "id") }

/-- Source function `handlePricingPlansCycle(event)`. -/
def handlePricingPlansCycle (env : Env N) (event : JSVal N) : Run N Unit :=
  Run.tryCatch (cycleBody env event)
    (fun _ => Run.emit (.log "error" "wixPricingPlans_onOrderCycleStarted error"))

/-- The body of the `try` of `wixStores_onOrderPaid`. -/
def storesBody (env : Env N) (event : JSVal N) : Run N Unit :=
  let order : JSVal N := (event.getOpt "order").or event
  (resolveBuyer env.directory
    (((order.getOpt "buyerInfo").or (order.getOpt "buyer")).or (.obj []))).andThen fun buyer =>
  let t : JSVal N := ((((order.getOpt "priceSummary").getOpt "total").or
    (order.getOpt "amountPaid")).or ((order.getOpt "totals").getOpt "total")).or (.obj [])
  let currency : JSVal N := (t.getOpt "currency").or (order.getOpt "currency")
  let amount : JSVal N :=
    if t.isNumber then t else (t.getOpt "amount").coalesce (t.getOpt "value")
  alertPayment env
    { source := .str "Stores"
      name := buyer.name, email := buyer.email
      plan := ((((order.getOpt "cart").getOpt "lineItems").getOpt "0").getOpt "name").or
        (.str "—")
      amount := amount, currency := currency
      id := (order.getOpt "id").or (order.getOpt "number") }

/-- Source function `wixStores_onOrderPaid(event)`. -/
def wixStores_onOrderPaid (env : Env N) (event : JSVal N) : Run N Unit :=
  Run.tryCatch (storesBody env event)
    (fun _ => Run.emit (.log "error" "wixStores_onOrderPaid error"))

/-- The value `inv` of the invoice handler: `event?.invoice || event || {}`. -/
def invoiceOf (event : JSVal N) : JSVal N :=
  ((event.getOpt "invoice").or event).or (.obj [])

/-- The paths tried for the id of an invoice. -/
def invoiceIdPaths : List String :=
  ["id", "_id", "number", "invoiceId", "metadata.id", "invoice.id"]

/-- The id of an invoice from the field found (lines 263 to 265 of the source):
`typeof rawId === 'object' ? (rawId.id || rawId._id || rawId.number || JSON.stringify(rawId))
: rawId`. -/
def invoiceId (rawId : JSVal N) : Except JSErr (JSVal N) :=
  if rawId.isObjectType then
    if rawId.nullish then .error (.typeError "Cannot read properties of null (reading id)")
    else .ok ((((rawId.prop "id").or (rawId.prop "_id")).or (rawId.prop "number")).or
      (jsonStringify rawId))
  else .ok rawId

/-- The candidate buyer assembled from an invoice (lines 268 to 292 of the source). -/
def invoiceCandidate (inv : JSVal N) : Except JSErr (JSVal N) := do
  let firstName ← firstOf inv ["buyer.firstName", "customer.firstName", "issuedTo.firstName",
    "payer.firstName", "recipient.firstName"] .undefined
  let lastName ← firstOf inv ["buyer.lastName", "customer.lastName", "issuedTo.lastName",
    "payer.lastName", "recipient.lastName"] .undefined
  let name ← firstOf inv ["buyer.name", "buyer.fullName", "customer.name", "customer.fullName",
    "issuedTo.name", "issuedTo.fullName", "payer.name", "payer.fullName",
    "recipient.name", "recipient.fullName"] .undefined
  let email ← firstOf inv ["buyer.email", "customer.email", "issuedTo.email", "payer.email",
    "recipient.email"] .undefined
  let contactId ← firstOf inv ["buyer.contactId", "buyer.contactID",
    "customer.contactId", "customer.contactID", "issuedTo.contactId", "issuedTo.contactID",
    "payer.contactId", "payer.contactID", "contactId"] .undefined
  pure (.obj [("firstName", firstName), ("lastName", lastName), ("name", name),
    ("email", email), ("contactId", contactId)])

/-- The buyer shown by the invoice handler (lines 294 and 295 of the source): the resolved
one, its name derived from the email when it has none. -/
def invoiceBuyer (resolved : Resolved N) : Resolved N :=
  if resolved.email.truthy && resolved.name.truthy then resolved
  else { name := resolved.name.or (.str (nameFromEmail resolved.email))
         email := resolved.email }

/-- The paths tried for the currency of an invoice. -/
def invoiceCurrencyPaths : List String :=
  ["paidAmount.currency", "amountPaid.currency", "totalAmount.currency",
    "grandTotal.currency", "total.currency", "amount.currency", "amount.value.currency",
    "totals.total.currency", "toPay.currency", "amountDue.currency"]

/-- The paths tried for the amount of an invoice. -/
def invoiceAmountPaths : List String :=
  ["paidAmount.amount", "amountPaid.amount", "totalAmount.amount", "grandTotal.amount",
    "total.amount", "amount.amount", "amount.value", "totals.total.amount", "toPay.amount",
    "amountDue.amount"]

/-- The amount and currency of an invoice (lines 303 to 326 of the source). -/
def invoiceMoney (event inv : JSVal N) : Except JSErr (Money N) := do
  let currency0 ← firstOf inv invoiceCurrencyPaths .undefined
  let amount0 ← firstOf inv invoiceAmountPaths .undefined
  let amount1 : JSVal N :=
    if amount0.isUndefined then (sumPayments inv).amount.coalesce amount0 else amount0
  let currency1 : JSVal N :=
    if amount0.isUndefined then currency0.or (sumPayments inv).currency else currency0
  let amount2 ← if amount1.isUndefined then
      firstOf event ["payment.amount.amount", "payment.amount.value", "payment.amount"] .undefined
    else pure amount1
  let currency2 ← if amount1.isUndefined then
      (if currency1.truthy then pure currency1
       else firstOf event ["payment.amount.currency", "payment.currency"] .undefined)
    else pure currency1
  pure ⟨amount2, ((currency2.or (inv.getOpt "currency")).or (inv.getOpt "currencyCode")).or
    ((inv.getOpt "totals").getOpt "currency")⟩

/-- The body of the `try` of `wixBilling_onInvoicePaid`. -/
def invoiceBody (env : Env N) (event : JSVal N) : Run N Unit :=
  (Run.ofExcept (firstOf (invoiceOf event) invoiceIdPaths (.str ""))).andThen fun rawId =>
  (Run.ofExcept (invoiceId rawId)).andThen fun id =>
  (Run.ofExcept (invoiceCandidate (invoiceOf event))).andThen fun candidate =>
  (resolveBuyer env.directory candidate).andThen fun resolved =>
  (Run.ofExcept (firstOf (invoiceOf event) ["title", "description", "memo", "subject",
    "lineItems.0.name", "lineItems.0.description"] (.str "—"))).andThen fun plan =>
  (Run.ofExcept (invoiceMoney event (invoiceOf event))).andThen fun money =>
  alertPayment env
    { source := .str "Invoice"
      name := (invoiceBuyer resolved).name, email := (invoiceBuyer resolved).email
      plan := plan, amount := money.amount, currency := money.currency, id := id }

/-- Source function `wixBilling_onInvoicePaid(event)`. -/
def wixBilling_onInvoicePaid (env : Env N) (event : JSVal N) : Run N Unit :=
  Run.tryCatch (invoiceBody env event)
    (fun _ => Run.emit (.log "error"
      ("wixBilling_onInvoicePaid error " ++ (jsonStringify event).toStr)))

end Handlers

/-! ## A concrete carrier -/

/-- Decimal digits of a natural number, at least `width` of them. -/
def padDigits (width n : Nat) : String :=
  let s := toString n
  String.mk (List.replicate (width - s.data.length) '0') ++ s

/-- Text of `n` hundredths with two decimals, as `toFixed(2)` prints it. -/
def fixed2OfHundredths (n : Int) : String :=
  (if n < 0 then "-" else "") ++ toString (n.natAbs / 100) ++ "." ++ padDigits 2 (n.natAbs % 100)

/-- Text of `n` hundredths without trailing zero decimals, as ToString prints it. -/
def strOfHundredths (n : Int) : String :=
  (if n < 0 then "-" else "") ++ toString (n.natAbs / 100) ++
    (if n.natAbs % 100 = 0 then ""
     else if n.natAbs % 10 = 0 then "." ++ toString (n.natAbs % 100 / 10)
     else "." ++ padDigits 2 (n.natAbs % 100))

/-- Case mapping of the ASCII letters, other characters unchanged. -/
def asciiUpper (s : String) : String := String.mk (s.data.map Char.toUpper)

/-- Case mapping of the ASCII letters, other characters unchanged. -/
def asciiLower (s : String) : String := String.mk (s.data.map Char.toLower)

/-- The carrier used for concrete evaluations: an integer `n` stands for the number `n / 100`.
Case mappings act on the ASCII letters. -/
instance hundredths : JSHost Int where
  ofNat n := (n : Int) * 100
  add a b := a + b
  truthy n := n != 0
  toFixed2 := fixed2OfHundredths
  toStr := strOfHundredths
  toJSON := strOfHundredths
  toUpperCase := asciiUpper
  toLowerCase := asciiLower
  truthy_zero := by decide
  add_zero := by intro x; simp
  lower_empty := by decide

/-- The number literal `k` (a non-negative integer) in the concrete carrier. -/
def lit (k : Nat) : JSVal Int := .num ((k : Int) * 100)

/-- A directory that finds nobody by email and fails on every fetch. -/
def emptyDirectory : Directory Int where
  queryByEmail _ := .ok (.obj [("items", .arr [])])
  getContact _ := .error (.raised "not found")

/-- Collaborators that answer every request of the dispatcher. -/
def quietEnv : Env Int where
  directory := emptyDirectory
  getOrder _ := .error (.raised "no order")
  getSecret k := .ok (.str k)
  fetch _ _ := .ok ⟨true, 200, .ok "ok"⟩

/-- A directory whose query by email finds a record that has an email and no name. -/
def anonDirectory : Directory Int where
  queryByEmail _ := .ok (.obj [("items", .arr [.obj [("_id", .str "c1"),
    ("primaryEmail", .obj [("email", .str "a.b@x.com")])]])])
  getContact _ := .error (.raised "not found")

section Spec

variable {N : Type} [JSHost N]

/-- A result of `getPath` that is not `undefined`, not `null` and not the empty string. -/
def presentResult : Except JSErr (JSVal N) → Bool
  | .ok v => isPresent v
  | .error _ => false

/-- The list that `sumPayments` reads: the one under `payments`, else the one under
`paymentHistory`; empty when neither holds a list. -/
def paymentList (inv : JSVal N) : List (JSVal N) :=
  match (inv.getOpt "payments").or (inv.getOpt "paymentHistory") with
  | .arr items => items
  | _ => []

/-- The numeric amount of a payment entry: taken from `amount.amount`, else `amount.value`,
else `amount` itself (the first one that is neither `undefined` nor `null`); an absent or
non-numeric amount counts as zero. -/
def entryNumber (p : JSVal N) : N :=
  match [(p.getOpt "amount").getOpt "amount", (p.getOpt "amount").getOpt "value",
      p.getOpt "amount"].find? (fun v => !v.nullish) with
  | some (.num a) => a
  | _ => JSHost.ofNat 0

/-- The sum of the numeric amounts of the entries, from zero, in list order. -/
def paymentsTotal (entries : List (JSVal N)) : N :=
  (entries.map entryNumber).foldl JSHost.add (JSHost.ofNat 0)

/-- What one character becomes under the escaping of the specification: the ampersand and
the two angle brackets become entities, every other character stays. -/
def escChar (c : Char) : List Char :=
  if c = '&' then "&amp;".data
  else if c = '<' then "&lt;".data
  else if c = '>' then "&gt;".data
  else [c]

/-- The pieces of a string between the characters of a class: `split` on a class. -/
def splitBy (p : Char → Bool) : List Char → List (List Char)
  | [] => [[]]
  | c :: cs =>
    if p c then [] :: splitBy p cs
    else match splitBy p cs with
      | [] => [[c]]
      | w :: ws => (c :: w) :: ws

/-- The words of a string: its maximal runs of characters that are not white space. -/
def wordsOf (s : List Char) : List (List Char) :=
  (splitBy isJsSpace s).filter (fun w => !w.isEmpty)

/-- A word with its first character upper-cased and the rest unchanged. -/
def upperFirst (N : Type) [JSHost N] (w : List Char) : List Char :=
  match w with
  | [] => []
  | c :: rest => (JSHost.toUpperCase N (String.mk [c])).data ++ rest

/-- The name derived from an email, in the words of the specification: the part before the
first `@`, every run of `.`, `_` and `-` replaced by a space, the words separated by single
spaces with no white space around, each word with its first character upper-cased; the
placeholder when that is empty.  Digits are not touched. -/
def emailDerivedName (N : Type) [JSHost N] (email : String) : String :=
  let loc := email.data.takeWhile (fun c => c != '@')
  let spaced := replaceRuns isNameSep [' '] false loc
  let titled := joinChars ' ' ((wordsOf spaced).map (upperFirst N))
  if titled = [] then "—" else String.mk titled

/-- Where a scan of a string stands with respect to its words. -/
inductive WordPos where
  | start : WordPos
  | word : WordPos
  | gap : WordPos

/-- The words of a string separated by single spaces, in one scan (auxiliary to the proof of
C9): a space is written when a word follows another one.  The class `p` is the white
space. -/
def normSpaces (p : Char → Bool) : WordPos → List Char → List Char
  | _, [] => []
  | pos, c :: cs =>
    if p c then
      normSpaces p (match pos with
        | .start => .start
        | _ => .gap) cs
    else match pos with
      | .gap => ' ' :: c :: normSpaces p .word cs
      | _ => c :: normSpaces p .word cs

/-- The string ends with a character of the class `p`; `b` when it is empty (auxiliary to
the proof of C9). -/
def endsSpace (p : Char → Bool) : Bool → List Char → Bool
  | b, [] => b
  | _, c :: cs => endsSpace p (p c) cs

/-- The first piece, and the later pieces that are not empty (auxiliary to the proof of
C9). -/
def keepHead : List (List Char) → List (List Char)
  | [] => []
  | h :: t => h :: t.filter (fun w => !w.isEmpty)

end Spec

/-! ## Theorems: field resolver -/

section FieldResolverTheorems

variable {N : Type} [JSHost N]

theorem get_of_truthy (o : JSVal N) (k : String) (h : o.truthy = true) :
    o.get k = .ok (o.prop k) := by
  cases o <;> simp_all [JSVal.get, JSVal.nullish, JSVal.truthy]

theorem getPathStep_ok (o : JSVal N) (k : String) :
    getPathStep o k = .ok (if o.truthy then o.prop k else .undefined) := by
  unfold getPathStep
  by_cases h : o.truthy = true
  · rw [get_of_truthy o k h]
    simp only [h, if_true]
    cases o.prop k <;> rfl
  · simp [h]

theorem getPathStep_undefined (k : String) :
    getPathStep (JSVal.undefined : JSVal N) k = .ok .undefined := by
  simp [getPathStep_ok, JSVal.truthy]

theorem getPathKeys_cons (o : JSVal N) (k : String) (rest : List String) :
    getPathKeys o (k :: rest) = getPathKeys (if o.truthy then o.prop k else .undefined) rest := by
  simp [getPathKeys, List.foldlM_cons, getPathStep_ok, bind, Except.bind]

theorem getPathKeys_undefined (keys : List String) :
    getPathKeys (JSVal.undefined : JSVal N) keys = .ok .undefined := by
  induction keys with
  | nil => rfl
  | cons k rest ih => rw [getPathKeys_cons]; simpa [JSVal.truthy] using ih

theorem getPathKeys_total (o : JSVal N) (keys : List String) :
    ∃ v, getPathKeys o keys = .ok v := by
  induction keys generalizing o with
  | nil => exact ⟨o, rfl⟩
  | cons k rest ih => rw [getPathKeys_cons]; exact ih _

theorem getPath_total (o : JSVal N) (path : String) : ∃ v, getPath o path = .ok v :=
  getPathKeys_total o _

theorem firstOf_find (obj : JSVal N) (paths : List String) (fallback : JSVal N) :
    firstOf obj paths fallback =
      match paths.find? (fun p => presentResult (getPath obj p)) with
      | some p => getPath obj p
      | none => .ok fallback := by
  induction paths with
  | nil => rfl
  | cons p ps ih =>
    obtain ⟨v, hv⟩ := getPath_total obj p
    by_cases hp : isPresent v = true
    · simp [firstOf, hv, hp, List.find?_cons, presentResult]
    · simp only [firstOf, hv, hp, List.find?_cons, presentResult]
      simpa using ih

/-- Claim C4.  `firstOf` returns the `getPath` result of the first path, in list order,
whose result is not `undefined`, not `null` and not the empty string, and the fallback when
the list has no such path; the two evaluations of the specification hold. -/
theorem C4_firstOf_first_present (obj : JSVal N) (paths : List String) (fallback : JSVal N) :
    (firstOf obj paths fallback =
      match paths.find? (fun p => presentResult (getPath obj p)) with
      | some p => getPath obj p
      | none => .ok fallback) ∧
    firstOf (.obj [("a", .obj [("b", lit 5)])]) ["a.c", "a.b"] (lit 0) = .ok (lit 5) ∧
    firstOf (.obj []) ["x.y"] (lit 7) = .ok (lit 7) :=
  ⟨firstOf_find obj paths fallback, rfl, rfl⟩

end FieldResolverTheorems

/-! ## Theorems: money -/

section MoneyTheorems

variable {N : Type} [JSHost N]

theorem isJsSpace_space : isJsSpace ' ' = true := by decide

theorem or_of_truthy (a b : JSVal N) (h : a.truthy = true) : a.or b = a := by
  simp [JSVal.or, h]

theorem sumLoop_total (entries : List (JSVal N)) (total : N) (currency : JSVal N) :
    (sumLoop entries total currency).1 = (entries.map entryNumber).foldl JSHost.add total := by
  induction entries generalizing total currency with
  | nil => rfl
  | cons p rest ih =>
    have hstep : (match entryAmount p with
        | .num a => JSHost.add total a
        | _ => total) = JSHost.add total (entryNumber p) := by
      unfold entryAmount entryNumber JSVal.coalesce
      cases h1 : (p.getOpt "amount").getOpt "amount" <;>
        cases h2 : (p.getOpt "amount").getOpt "value" <;>
          cases h3 : p.getOpt "amount" <;>
            simp [JSVal.nullish, List.find?_cons, JSHost.add_zero]
    simp only [sumLoop, List.map_cons, List.foldl_cons]
    rw [ih, hstep]

theorem sumPayments_amount (inv : JSVal N) :
    (sumPayments inv).amount =
      if JSHost.truthy (paymentsTotal (paymentList inv))
      then .num (paymentsTotal (paymentList inv)) else .undefined := by
  unfold sumPayments paymentList paymentsTotal
  cases h : (inv.getOpt "payments").or (inv.getOpt "paymentHistory") with
  | arr items =>
    cases items with
    | nil => simp [JSVal.or, JSVal.truthy, JSHost.truthy_zero]
    | cons p ps => simp [JSVal.or, JSVal.truthy, sumLoop_total]
  | undefined => simp [JSVal.or, JSVal.truthy, JSHost.truthy_zero]
  | null => simp [JSVal.or, JSVal.truthy, JSHost.truthy_zero]
  | bool b => cases b <;> simp [JSVal.or, JSVal.truthy, JSHost.truthy_zero]
  | num n =>
    by_cases hn : JSHost.truthy n = true <;> simp [JSVal.or, JSVal.truthy, JSHost.truthy_zero, hn]
  | str t =>
    by_cases ht : t.data = [] <;> simp [JSVal.or, JSVal.truthy, JSHost.truthy_zero, ht]
  | obj fs => simp [JSVal.or, JSVal.truthy, JSHost.truthy_zero]

theorem sumPayments_empty (inv : JSVal N) (h : paymentList inv = []) :
    (sumPayments inv).amount = .undefined ∧ (sumPayments inv).currency = .undefined := by
  unfold sumPayments
  unfold paymentList at h
  cases h2 : (inv.getOpt "payments").or (inv.getOpt "paymentHistory") with
  | arr items =>
    rw [h2] at h
    simp only at h
    subst h
    simp [JSVal.or, JSVal.truthy]
  | undefined => simp [JSVal.or, JSVal.truthy]
  | null => simp [JSVal.or, JSVal.truthy]
  | bool b => cases b <;> simp [JSVal.or, JSVal.truthy]
  | num n => by_cases hn : JSHost.truthy n = true <;> simp [JSVal.or, JSVal.truthy, hn]
  | str t => by_cases ht : t.data = [] <;> simp [JSVal.or, JSVal.truthy, ht]
  | obj fs => simp [JSVal.or, JSVal.truthy]

/-- Claim C6.  `sumPayments` reads the list under `payments` (else `paymentHistory`); its
amount is the sum of the numeric amounts of the entries (each from `amount.amount`, else
`amount.value`, else `amount`, an absent or non-numeric one counting as zero) when that sum
is truthy, and `undefined` when the sum is zero or the list is empty or absent, then with an
`undefined` currency; the two evaluations of the specification hold. -/
theorem C6_sumPayments_total (inv : JSVal N) :
    ((sumPayments inv).amount =
      if JSHost.truthy (paymentsTotal (paymentList inv))
      then .num (paymentsTotal (paymentList inv)) else .undefined) ∧
    (paymentsTotal (paymentList inv) = JSHost.ofNat 0 → (sumPayments inv).amount = .undefined) ∧
    (paymentList inv = [] →
      (sumPayments inv).amount = .undefined ∧ (sumPayments inv).currency = .undefined) ∧
    (sumPayments (.obj [("payments", .arr [
        .obj [("amount", .obj [("amount", lit 10), ("currency", .str "USD")])],
        .obj [("amount", lit 5)]])])).amount = lit 15 ∧
    (sumPayments (.obj [("payments", .arr [
        .obj [("amount", .obj [("amount", lit 10), ("currency", .str "USD")])],
        .obj [("amount", lit 5)]])])).currency = .str "USD" ∧
    (sumPayments (.obj [("payments", (.arr [] : JSVal Int))])).amount = .undefined ∧
    (sumPayments (.obj [("payments", (.arr [] : JSVal Int))])).currency = .undefined := by
  refine ⟨sumPayments_amount inv, ?_, sumPayments_empty inv, rfl, rfl, rfl, rfl⟩
  intro h
  rw [sumPayments_amount, h, JSHost.truthy_zero]
  simp

/-- Witness of C6: two payments that cancel out, `5` and `-5`. -/
theorem C6_sumPayments_witness :
    paymentsTotal (paymentList (.obj [("payments", .arr [
        .obj [("amount", .num (500 : Int))], .obj [("amount", .num (-500 : Int))]])]))
      = JSHost.ofNat 0 ∧
    (sumPayments (.obj [("payments", .arr [
        .obj [("amount", .num (500 : Int))], .obj [("amount", .num (-500 : Int))]])])).amount
      = .undefined :=
  ⟨rfl, (C6_sumPayments_total _).2.1 rfl⟩

end MoneyTheorems

/-! ## Theorems: buyer identity -/

section BuyerTheorems

variable {N : Type} [JSHost N]

theorem orDefault_of_not_nullish (v d : JSVal N) (h : v.nullish = false) :
    v.orDefault d = v := by
  cases v <;> simp_all [JSVal.nullish, JSVal.orDefault]

theorem queryStep_result (dir : Directory N) (st : BuyerState N) (name cid : JSVal N) :
    (queryStep dir st name cid).result = .ok st ∨
    ∃ q, (noNameMaterial st name && st.email.truthy && !cid.truthy) = true ∧
      dir.queryByEmail st.email = .ok q ∧
      (queryStep dir st name cid).result = .ok (applyMatch st q) := by
  unfold queryStep
  by_cases hc : (noNameMaterial st name && st.email.truthy && !cid.truthy) = true
  · rw [if_pos hc]
    cases hq : dir.queryByEmail st.email with
    | error e => left; simp [Run.tryCatch, Run.andThen, Run.call, Run.ret, Run.emit, hq]
    | ok q =>
      right
      exact ⟨q, hc, rfl, by simp [Run.tryCatch, Run.andThen, Run.call, Run.ret, hq]⟩
  · rw [if_neg hc]; left; rfl

theorem fetchStep_result (dir : Directory N) (st : BuyerState N) (name cid : JSVal N) :
    (fetchStep dir st name cid).result = .ok st ∨
    ∃ c, dir.getContact cid = .ok c ∧
      (fetchStep dir st name cid).result = .ok (applyContact st c) := by
  unfold fetchStep
  by_cases hc : (noNameMaterial st name || !st.email.truthy) = true
  · rw [if_pos hc]
    by_cases hid : cid.truthy = true
    · rw [if_pos hid]
      cases hq : dir.getContact cid with
      | error e => left; simp [Run.tryCatch, Run.andThen, Run.call, Run.ret, Run.emit, hq]
      | ok c =>
        right
        exact ⟨c, rfl, by simp [Run.tryCatch, Run.andThen, Run.call, Run.ret, hq]⟩
    · rw [if_neg hid]; left; rfl
  · rw [if_neg hc]; left; rfl

theorem resolveBuyer_result (dir : Directory N) (buyer : JSVal N) (hb : buyer.nullish = false)
    (st1 st2 : BuyerState N)
    (h1 : (queryStep dir (ownState buyer) (ownName buyer) (ownContactId buyer)).result = .ok st1)
    (h2 : (fetchStep dir st1 (ownName buyer) (ownContactId buyer)).result = .ok st2) :
    (resolveBuyer dir buyer).result = .ok (finish st2 (ownName buyer)) := by
  unfold resolveBuyer
  simp only [orDefault_of_not_nullish buyer _ hb, hb, Bool.false_eq_true, if_false]
  simp [Run.andThen, h1, h2, Run.ret]

theorem resolveBuyer_total (dir : Directory N) (buyer : JSVal N) (hb : buyer.nullish = false) :
    ∃ st1 st2,
      (queryStep dir (ownState buyer) (ownName buyer) (ownContactId buyer)).result = .ok st1 ∧
      (fetchStep dir st1 (ownName buyer) (ownContactId buyer)).result = .ok st2 ∧
      (resolveBuyer dir buyer).result = .ok (finish st2 (ownName buyer)) := by
  obtain ⟨st1, h1⟩ : ∃ st1,
      (queryStep dir (ownState buyer) (ownName buyer) (ownContactId buyer)).result = .ok st1 := by
    rcases queryStep_result dir (ownState buyer) (ownName buyer) (ownContactId buyer) with h | ⟨q, _, _, h⟩
    · exact ⟨_, h⟩
    · exact ⟨_, h⟩
  obtain ⟨st2, h2⟩ : ∃ st2,
      (fetchStep dir st1 (ownName buyer) (ownContactId buyer)).result = .ok st2 := by
    rcases fetchStep_result dir st1 (ownName buyer) (ownContactId buyer) with h | ⟨c, _, h⟩
    · exact ⟨_, h⟩
    · exact ⟨_, h⟩
  exact ⟨st1, st2, h1, h2, resolveBuyer_result dir buyer hb st1 st2 h1 h2⟩

end BuyerTheorems

/-! ## Theorems: the name derived from an email -/

section NameTheorems

variable {N : Type} [JSHost N]

theorem splitChars_head (sep : Char) (s : List Char) :
    ∃ rest, splitChars sep s = s.takeWhile (fun c => c != sep) :: rest := by
  induction s with
  | nil => exact ⟨[], rfl⟩
  | cons c cs ih =>
    obtain ⟨rest, hr⟩ := ih
    by_cases hc : c = sep
    · exact ⟨splitChars sep cs, by simp [splitChars, hc]⟩
    · exact ⟨rest, by simp [splitChars, hc, hr]⟩

theorem replaceDigitRuns_id (run s : List Char) : replaceDigitRuns id run s = run ++ s := by
  induction s generalizing run with
  | nil => simp [replaceDigitRuns, flushDigits]
  | cons c cs ih =>
    unfold replaceDigitRuns
    split
    · rw [ih]; simp
    · rw [ih]; simp [flushDigits]

section Spaces

variable (p : Char → Bool)

theorem collapse_normSpaces (s : List Char) :
    (replaceRuns p [' '] false s =
      normSpaces p .word s ++ (if endsSpace p false s then [' '] else [])) ∧
    (' ' :: replaceRuns p [' '] true s =
      normSpaces p .gap s ++ (if endsSpace p true s then [' '] else [])) := by
  induction s with
  | nil => exact ⟨rfl, rfl⟩
  | cons c cs ih =>
    obtain ⟨ih1, ih2⟩ := ih
    by_cases hc : p c = true
    · simp only [replaceRuns, normSpaces, endsSpace, hc, if_true, Bool.false_eq_true, if_false]
      exact ⟨by simpa using ih2, ih2⟩
    · have hc2 : p c = false := by simpa using hc
      simp only [replaceRuns, normSpaces, endsSpace, hc2, Bool.false_eq_true, if_false]
      rw [ih1]
      simp

theorem dropWhile_collapse (hp : p ' ' = true) (s : List Char) (f : Bool) :
    (replaceRuns p [' '] f s).dropWhile p =
      normSpaces p .start s ++ (if endsSpace p false (s.dropWhile p) then [' '] else []) := by
  induction s generalizing f with
  | nil => simp [replaceRuns, normSpaces, endsSpace]
  | cons c cs ih =>
    by_cases hc : p c = true
    · cases f <;>
        simp [replaceRuns, normSpaces, hc, List.dropWhile_cons, hp, ih true]
    · have hc2 : p c = false := by simpa using hc
      simp only [replaceRuns, normSpaces, endsSpace, hc2, Bool.false_eq_true, if_false,
        List.dropWhile_cons]
      rw [(collapse_normSpaces p cs).1]
      simp

theorem normSpaces_last (pos : WordPos) (s : List Char) :
    ∀ c, (normSpaces p pos s).getLast? = some c → p c = false := by
  induction s generalizing pos with
  | nil => intro c h; simp [normSpaces] at h
  | cons x xs ih =>
    intro c h
    by_cases hx : p x = true
    · simp only [normSpaces, hx, if_true] at h
      exact ih _ c h
    · have hx2 : p x = false := by simpa using hx
      have key : (x :: normSpaces p .word xs).getLast? = some c → p c = false := by
        intro h2
        cases hn : normSpaces p .word xs with
        | nil =>
          rw [hn] at h2
          simp at h2
          rw [← h2]; exact hx2
        | cons y ys =>
          rw [hn, List.getLast?_cons_cons] at h2
          rw [← hn] at h2
          exact ih _ c h2
      cases pos with
      | gap =>
        simp only [normSpaces, hx2, Bool.false_eq_true, if_false, List.getLast?_cons_cons] at h
        exact key h
      | start =>
        simp only [normSpaces, hx2, Bool.false_eq_true, if_false] at h
        exact key h
      | word =>
        simp only [normSpaces, hx2, Bool.false_eq_true, if_false] at h
        exact key h

theorem rdropWhile_normSpaces (pos : WordPos) (s : List Char) :
    (normSpaces p pos s).rdropWhile p = normSpaces p pos s := by
  rw [List.rdropWhile_eq_self_iff]
  intro hl
  have h := normSpaces_last p pos s _ (List.getLast?_eq_getLast _ hl)
  simp [h]

theorem trim_collapse_gen (hp : p ' ' = true) (s : List Char) :
    ((replaceRuns p [' '] false s).dropWhile p).rdropWhile p = normSpaces p .start s := by
  rw [dropWhile_collapse p hp]
  split
  · rw [List.rdropWhile_concat_pos _ _ _ hp]
    exact rdropWhile_normSpaces p _ _
  · simpa using rdropWhile_normSpaces p .start s

theorem splitChars_cons_ne (hp : p ' ' = true) (c : Char) (xs : List Char) (h : p c = false) :
    splitChars ' ' (c :: xs) =
      match splitChars ' ' xs with
      | [] => [[c]]
      | w :: ws => (c :: w) :: ws := by
  have hne : c ≠ ' ' := by
    intro hc
    rw [hc, hp] at h
    cases h
  simp [splitChars, hne]

theorem split_normSpaces (hp : p ' ' = true) (s : List Char) :
    splitChars ' ' (normSpaces p .word s) = keepHead (splitBy p s) ∧
    splitChars ' ' (normSpaces p .gap s) = [] :: (splitBy p s).filter (fun w => !w.isEmpty) := by
  induction s with
  | nil => exact ⟨rfl, rfl⟩
  | cons c cs ih =>
    obtain ⟨ih1, ih2⟩ := ih
    by_cases hc : p c = true
    · simp only [normSpaces, hc, if_true, splitBy, keepHead]
      refine ⟨ih2, ?_⟩
      rw [ih2]
      simp [List.filter]
    · have hc2 : p c = false := by simpa using hc
      simp only [normSpaces, hc2, Bool.false_eq_true, if_false, splitBy]
      have hstep : splitChars ' ' (c :: normSpaces p .word cs) =
          keepHead (match splitBy p cs with
            | [] => [[c]]
            | w :: ws => (c :: w) :: ws) := by
        rw [splitChars_cons_ne p hp c _ hc2, ih1]
        cases splitBy p cs <;> rfl
      refine ⟨hstep, ?_⟩
      have h2 : splitChars ' ' (' ' :: c :: normSpaces p .word cs) =
          [] :: splitChars ' ' (c :: normSpaces p .word cs) := by
        simp [splitChars]
      rw [h2, hstep]
      cases splitBy p cs <;> simp [keepHead, List.filter]

theorem split_normSpaces_start (hp : p ' ' = true) (s : List Char) :
    splitChars ' ' (normSpaces p .start s) =
      if (splitBy p s).filter (fun w => !w.isEmpty) = [] then [[]]
      else (splitBy p s).filter (fun w => !w.isEmpty) := by
  induction s with
  | nil => rfl
  | cons c cs ih =>
    by_cases hc : p c = true
    · simp only [normSpaces, hc, if_true]
      rw [ih]
      simp [splitBy, hc, List.filter]
    · have hc2 : p c = false := by simpa using hc
      simp only [normSpaces, hc2, Bool.false_eq_true, if_false]
      rw [splitChars_cons_ne p hp c _ hc2, (split_normSpaces p hp cs).1]
      simp only [splitBy, hc2, Bool.false_eq_true, if_false]
      cases splitBy p cs <;> simp [keepHead, List.filter]
end Spaces

theorem trim_collapse (s : List Char) :
    trimChars (replaceRuns isJsSpace [' '] false s) = normSpaces isJsSpace .start s :=
  trim_collapse_gen isJsSpace isJsSpace_space s

theorem split_trim_collapse (s : List Char) :
    splitChars ' ' (trimChars (replaceRuns isJsSpace [' '] false s)) =
      if wordsOf s = [] then [[]] else wordsOf s := by
  rw [trim_collapse]
  exact split_normSpaces_start isJsSpace isJsSpace_space s
theorem capWord_eq_upperFirst : capWord N = upperFirst N := by
  funext w
  cases w <;> rfl

theorem titleCaseWords_words (str : String) :
    (titleCaseWords N str).data = joinChars ' ' ((wordsOf str.data).map (upperFirst N)) := by
  unfold titleCaseWords
  simp only [split_trim_collapse, capWord_eq_upperFirst]
  split
  · rename_i h
    rw [h]
    rfl
  · rfl

/-- Claim C9.  For every email string, `nameFromEmail` returns the part before the first
`@` with every run of `.`, `_` and `-` replaced by a space, the words separated by single
spaces and trimmed, digits unchanged, each word with its first character upper-cased and
the rest unchanged, and the placeholder when that is empty; the evaluation of the
specification holds. -/
theorem C9_nameFromEmail_derived (email : String) :
    nameFromEmail (.str email : JSVal N) = emailDerivedName N email ∧
    nameFromEmail (.str "john.doe99@x.com" : JSVal Int) = "John Doe99" := by
  refine ⟨?_, rfl⟩
  obtain ⟨rest, hr⟩ := splitChars_head '@' email.data
  unfold nameFromEmail emailDerivedName
  simp only [JSVal.orDefault, JSVal.toStr, hr, replaceDigitRuns_id, List.nil_append,
    titleCaseWords_words]
  by_cases h : joinChars ' ' ((wordsOf (replaceRuns isNameSep [' '] false
      (email.data.takeWhile (fun c => c != '@')))).map (upperFirst N)) = []
  · simp [h]
  · simp only [h, if_false, bne_iff_ne, ne_eq, not_false_eq_true, if_true]
    exact String.ext (titleCaseWords_words _)

end NameTheorems

/-! ## Theorems: the payment-update handler -/

section PayTheorems

variable {N : Type} [JSHost N]

theorem andThen_of_ok {α β : Type} (r : Run N α) (f : α → Run N β) (a : α)
    (h : r.result = .ok a) :
    r.andThen f = ⟨r.effects ++ (f a).effects, (f a).result⟩ := by
  simp [Run.andThen, h]

end PayTheorems

/-! ## Theorems: escaping and string amounts -/

section EscapeTheorems

variable {N : Type} [JSHost N]

theorem replaceChar_append (c : Char) (r xs ys : List Char) :
    replaceChar c r (xs ++ ys) = replaceChar c r xs ++ replaceChar c r ys := by
  induction xs with
  | nil => rfl
  | cons x rest ih =>
    by_cases h : x = c <;> simp [replaceChar, h, ih]

theorem replaceChar_cons_self (c : Char) (r xs : List Char) :
    replaceChar c r (c :: xs) = r ++ replaceChar c r xs := by
  simp [replaceChar]

theorem replaceChar_cons_ne (c : Char) (r : List Char) (x : Char) (xs : List Char)
    (h : x ≠ c) : replaceChar c r (x :: xs) = x :: replaceChar c r xs := by
  simp [replaceChar, h]

theorem escape_chars (cs : List Char) :
    replaceChar '>' "&gt;".data (replaceChar '<' "&lt;".data
      (replaceChar '&' "&amp;".data cs)) = cs.flatMap escChar := by
  induction cs with
  | nil => rfl
  | cons c rest ih =>
    rw [List.flatMap_cons]
    by_cases h1 : c = '&'
    · subst h1
      have k1 : replaceChar '<' "&lt;".data "&amp;".data = "&amp;".data := by decide
      have k2 : replaceChar '>' "&gt;".data "&amp;".data = "&amp;".data := by decide
      have k3 : escChar '&' = "&amp;".data := by decide
      rw [replaceChar_cons_self, replaceChar_append, replaceChar_append, k1, k2, ih, k3]
    · by_cases h2 : c = '<'
      · subst h2
        have k2 : replaceChar '>' "&gt;".data "&lt;".data = "&lt;".data := by decide
        have k3 : escChar '<' = "&lt;".data := by decide
        rw [replaceChar_cons_ne _ _ _ _ h1, replaceChar_cons_self, replaceChar_append, k2,
          ih, k3]
      · by_cases h3 : c = '>'
        · subst h3
          have k3 : escChar '>' = "&gt;".data := by decide
          rw [replaceChar_cons_ne _ _ _ _ h1, replaceChar_cons_ne _ _ _ _ h2,
            replaceChar_cons_self, ih, k3]
        · have k3 : escChar c = [c] := by simp [escChar, h1, h2, h3]
          rw [replaceChar_cons_ne _ _ _ _ h1, replaceChar_cons_ne _ _ _ _ h2,
            replaceChar_cons_ne _ _ _ _ h3, ih, k3]
          rfl

theorem escChar_no_angle (c x : Char) (hx : x ∈ escChar c) : x ≠ '<' ∧ x ≠ '>' := by
  unfold escChar at hx
  split at hx
  · revert x; decide
  · split at hx
    · revert x; decide
    · split at hx
      · revert x; decide
      · rename_i h1 h2 h3
        simp only [List.mem_singleton] at hx
        subst hx
        exact ⟨h2, h3⟩

theorem escHtml_str (s : String) :
    escHtml (.str s : JSVal N) = String.mk (s.data.flatMap escChar) := by
  unfold escHtml
  simp only [JSVal.orDefault, JSVal.isObjectType, Bool.and_false, Bool.false_eq_true,
    if_false, JSVal.toStr]
  exact congrArg String.mk (escape_chars s.data)

/-- Claim C17.  For every string, `escHtml` is the character-wise substitution of `&amp;`
for the ampersand, `&lt;` for `<` and `&gt;` for `>`, all at once, and its result holds no
`<` and no `>`. -/
theorem C17_escHtml_substitution (s : String) :
    escHtml (.str s : JSVal N) = String.mk (s.data.flatMap escChar) ∧
    '<' ∉ (escHtml (.str s : JSVal N)).data ∧ '>' ∉ (escHtml (.str s : JSVal N)).data := by
  rw [escHtml_str]
  refine ⟨rfl, ?_, ?_⟩
  · intro h
    obtain ⟨c, _, hc⟩ := List.mem_flatMap.1 h
    exact (escChar_no_angle c _ hc).1 rfl
  · intro h
    obtain ⟨c, _, hc⟩ := List.mem_flatMap.1 h
    exact (escChar_no_angle c _ hc).2 rfl

theorem prop_str_value (s : String) (k : String) (hk : k ≠ "length")
    (hi : JSVal.parseIndex k = none) : (JSVal.str s : JSVal N).prop k = .undefined := by
  simp [JSVal.prop, hk, hi]

/-- Claim C20.  For every amount that is a string and every non-empty currency `c`,
`fmtMoney` returns `0.00 c`: the string is never rendered; an invoice whose amount field
holds the string `25.00` is dispatched with that string and shown as `0.00 USD`. -/
theorem C20_fmtMoney_string_amount (s c : String) (hc : c ≠ "") :
    fmtMoney (.str s : JSVal N) (.str c) = "0.00 " ++ c ∧
    (Run.dispatches (wixBilling_onInvoicePaid quietEnv (.obj [("invoice", .obj [
        ("id", .str "INV-9"),
        ("paidAmount", .obj [("amount", .str "25.00"), ("currency", .str "USD")])])])).effects).map
      (fun a => (a.amount, fmtMoney a.amount a.currency)) = [(.str "25.00", "0.00 USD")] := by
  refine ⟨?_, rfl⟩
  have hv : (JSVal.str s : JSVal N).prop "value" = .undefined :=
    prop_str_value s "value" (by decide) (by decide)
  have ha : (JSVal.str s : JSVal N).prop "amount" = .undefined :=
    prop_str_value s "amount" (by decide) (by decide)
  have hct : (JSVal.str c : JSVal N).truthy = true := by
    simp only [JSVal.truthy, bne_iff_ne, ne_eq]
    intro hd
    exact hc (String.ext hd)
  unfold fmtMoney
  simp only [hv, ha, JSVal.nullish, Bool.not_true, Bool.and_false, Bool.false_eq_true,
    if_false, hct, if_true, JSVal.toStr]
  cases (JSVal.str s : JSVal N).truthy <;> rfl

/-- Witness of C20: the amount `25.00` with the currency `EUR`. -/
theorem C20_fmtMoney_witness :
    fmtMoney (.str "25.00" : JSVal Int) (.str "EUR") = "0.00 " ++ "EUR" :=
  (C20_fmtMoney_string_amount "25.00" "EUR" (by decide)).1

end EscapeTheorems

/-! ## Theorems: order amounts -/

section OrderTheorems

variable {N : Type} [JSHost N]

theorem prop_ne_undefined_truthy_obj (o : JSVal N) (k : String) (v : JSVal N)
    (h : o.prop k = v) (hv : v.isUndefined = false) (hk : k ≠ "length")
    (hi : JSVal.parseIndex k = none) : ∃ fields, o = .obj fields := by
  cases o with
  | obj fields => exact ⟨fields, rfl⟩
  | arr items => simp [JSVal.prop, hk, hi] at h; subst h; simp [JSVal.isUndefined] at hv
  | str s => simp [JSVal.prop, hk, hi] at h; subst h; simp [JSVal.isUndefined] at hv
  | undefined => simp [JSVal.prop] at h; subst h; simp [JSVal.isUndefined] at hv
  | null => simp [JSVal.prop] at h; subst h; simp [JSVal.isUndefined] at hv
  | bool b => simp [JSVal.prop] at h; subst h; simp [JSVal.isUndefined] at hv
  | num n => simp [JSVal.prop] at h; subst h; simp [JSVal.isUndefined] at hv

theorem getAmountFromOrder_total_price (order total : JSVal N)
    (ht : (order.prop "pricing").prop "totalPrice" = total) (htr : total.truthy = true) :
    ∃ m, getAmountFromOrder order = .ok m ∧
      m.amount = (if total.isNumber then total
        else if (total.getOpt "amount").isNumber then total.getOpt "amount"
        else total.getOpt "value") := by
  have hu : total.isUndefined = false := by
    cases total <;> simp_all [JSVal.isUndefined, JSVal.truthy]
  obtain ⟨pf, hp⟩ := prop_ne_undefined_truthy_obj (order.prop "pricing") "totalPrice" total ht hu
    (by decide) (by decide)
  have hpu : (order.prop "pricing").isUndefined = false := by rw [hp]; rfl
  obtain ⟨orf, ho⟩ := prop_ne_undefined_truthy_obj order "pricing" _ rfl hpu
    (by decide) (by decide)
  subst ho
  have hpt : (JSVal.prop (.obj orf : JSVal N) "pricing").truthy = true := by rw [hp]; rfl
  cases hg : getAmountFromOrder (.obj orf : JSVal N) with
  | error e => simp [getAmountFromOrder, JSVal.orDefault, JSVal.nullish] at hg
  | ok m =>
    refine ⟨m, rfl, ?_⟩
    simp only [getAmountFromOrder, JSVal.orDefault, JSVal.nullish, Bool.false_eq_true,
      if_false, Except.ok.injEq] at hg
    subst hg
    simp only [orderTotal, or_of_truthy _ _ hpt, ht, or_of_truthy _ _ htr]

/-- Claim C12, as stated, fails: for an order whose `pricing.totalPrice` is the bare number
`0`, `getAmountFromOrder` returns no amount, and the amount of `pricing.total` when there is
one. -/
theorem C12_counterexample :
    getAmountFromOrder (.obj [("pricing", .obj [("totalPrice", lit 0), ("currency", .str "USD")])])
      = .ok ⟨.undefined, .str "USD"⟩ ∧
    getAmountFromOrder (.obj [("pricing", .obj [("totalPrice", lit 0), ("total", lit 5)])])
      = .ok ⟨lit 5, .undefined⟩ :=
  ⟨rfl, rfl⟩

/-- Claim C12, amended.  For every order whose `pricing.totalPrice` is a bare number `n`
other than zero (a truthy number), `getAmountFromOrder` returns the amount `n`; and for
every order whose `pricing.totalPrice` is an object, it returns the numeric `.amount` of
that object, else its `.value`. -/
theorem C12_getAmountFromOrder_total_price (order : JSVal N) :
    (∀ n : N, (order.prop "pricing").prop "totalPrice" = .num n → JSHost.truthy n = true →
      ∃ m, getAmountFromOrder order = .ok m ∧ m.amount = .num n) ∧
    (∀ fields : List (String × JSVal N),
      (order.prop "pricing").prop "totalPrice" = .obj fields →
      ∃ m, getAmountFromOrder order = .ok m ∧
        m.amount = (if (JSVal.lookupField "amount" fields).isNumber
          then JSVal.lookupField "amount" fields else JSVal.lookupField "value" fields)) := by
  constructor
  · intro n hn ht
    obtain ⟨m, hm, ha⟩ := getAmountFromOrder_total_price order (.num n) hn ht
    exact ⟨m, hm, by simpa [JSVal.isNumber] using ha⟩
  · intro fields hf
    obtain ⟨m, hm, ha⟩ := getAmountFromOrder_total_price order (.obj fields) hf rfl
    exact ⟨m, hm, by simpa [JSVal.isNumber, JSVal.getOpt, JSVal.nullish, JSVal.prop] using ha⟩

/-- Witness of C12 amended: a bare total of `9`, and a total object with `.value`. -/
theorem C12_getAmountFromOrder_witness :
    (∃ m, getAmountFromOrder (.obj [("pricing", .obj [("totalPrice", lit 9)])]) = .ok m ∧
      m.amount = lit 9) ∧
    (∃ m, getAmountFromOrder (.obj [("pricing", .obj [("totalPrice",
        .obj [("value", lit 7), ("currency", .str "EUR")])])]) = .ok m ∧
      m.amount = lit 7) :=
  ⟨(C12_getAmountFromOrder_total_price (.obj [("pricing", .obj [("totalPrice", lit 9)])])).1
      900 rfl (by decide),
    (C12_getAmountFromOrder_total_price (.obj [("pricing", .obj [("totalPrice",
        .obj [("value", lit 7), ("currency", .str "EUR")])])])).2
      [("value", lit 7), ("currency", .str "EUR")] rfl⟩

end OrderTheorems

/-! ## Theorems: delivery failures and the failure boundary -/

section BoundaryTheorems

variable {N : Type} [JSHost N]

theorem tryCatch_emit_result (body : Run N Unit) (e : JSErr → Effect N) :
    (Run.tryCatch body (fun err => Run.emit (e err))).result = .ok () := by
  unfold Run.tryCatch
  split
  · rename_i u h
    rw [h]
  · rfl

/-- Claim C16.  For every event payload (`null`, `undefined` and malformed records
included) and every behaviour of the collaborators, each inbound handler completes without
propagating an error to its caller. -/
theorem C16_handlers_never_raise (env : Env N) (event : JSVal N) :
    (wixPaidPlans_onOrderPurchased env event).result = .ok () ∧
    (handlePricingPlansCycle env event).result = .ok () ∧
    (wixPay_onPaymentUpdate env event).result = .ok () ∧
    (wixStores_onOrderPaid env event).result = .ok () ∧
    (wixBilling_onInvoicePaid env event).result = .ok () :=
  ⟨tryCatch_emit_result _ _, tryCatch_emit_result _ _, tryCatch_emit_result _ _,
    tryCatch_emit_result _ _, tryCatch_emit_result _ _⟩

end BoundaryTheorems

/-! ## Theorems: directory requests -/

section RequestTheorems

variable {N : Type} [JSHost N]

theorem dirRequests_append (l1 l2 : List (Effect N)) :
    Run.dirRequests (l1 ++ l2) = Run.dirRequests l1 + Run.dirRequests l2 := by
  induction l1 with
  | nil => simp [Run.dirRequests]
  | cons e rest ih => cases e <;> simp [Run.dirRequests, ih] <;> omega

theorem queryStep_requests (dir : Directory N) (st : BuyerState N) (name cid : JSVal N) :
    Run.dirRequests (queryStep dir st name cid).effects ≤ 1 ∧
    (cid.truthy = true → Run.dirRequests (queryStep dir st name cid).effects = 0) ∧
    (noNameMaterial st name = false → queryStep dir st name cid = Run.ret st) := by
  unfold queryStep
  by_cases hc : (noNameMaterial st name && st.email.truthy && !cid.truthy) = true
  · rw [if_pos hc]
    simp only [Bool.and_eq_true, Bool.not_eq_true'] at hc
    obtain ⟨⟨hn, _⟩, hcid⟩ := hc
    refine ⟨?_, ?_, ?_⟩
    · cases hq : dir.queryByEmail st.email <;>
        simp [Run.tryCatch, Run.andThen, Run.call, Run.ret, Run.emit, hq, Run.dirRequests]
    · intro h; rw [hcid] at h; cases h
    · intro h; rw [hn] at h; cases h
  · rw [if_neg hc]
    exact ⟨by simp [Run.ret, Run.dirRequests], fun _ => rfl, fun _ => rfl⟩

theorem fetchStep_requests (dir : Directory N) (st : BuyerState N) (name cid : JSVal N) :
    Run.dirRequests (fetchStep dir st name cid).effects ≤ 1 ∧
    (cid.truthy = false → Run.dirRequests (fetchStep dir st name cid).effects = 0) ∧
    (noNameMaterial st name = false → st.email.truthy = true →
      Run.dirRequests (fetchStep dir st name cid).effects = 0) := by
  unfold fetchStep
  by_cases hc : (noNameMaterial st name || !st.email.truthy) = true
  · rw [if_pos hc]
    by_cases hid : cid.truthy = true
    · rw [if_pos hid]
      refine ⟨?_, ?_, ?_⟩
      · cases hq : dir.getContact cid <;>
          simp [Run.tryCatch, Run.andThen, Run.call, Run.ret, Run.emit, hq, Run.dirRequests]
      · intro h; rw [hid] at h; cases h
      · intro hn he; simp [hn, he] at hc
    · rw [if_neg hid]
      exact ⟨by simp [Run.ret, Run.dirRequests], fun _ => rfl, fun _ _ => rfl⟩
  · rw [if_neg hc]
    exact ⟨by simp [Run.ret, Run.dirRequests], fun _ => rfl, fun _ _ => rfl⟩

theorem resolveBuyer_effects (dir : Directory N) (buyer : JSVal N) (hb : buyer.nullish = false)
    (st1 : BuyerState N)
    (h1 : (queryStep dir (ownState buyer) (ownName buyer) (ownContactId buyer)).result = .ok st1) :
    Run.dirRequests (resolveBuyer dir buyer).effects =
      Run.dirRequests (queryStep dir (ownState buyer) (ownName buyer)
        (ownContactId buyer)).effects +
      Run.dirRequests (fetchStep dir st1 (ownName buyer) (ownContactId buyer)).effects := by
  obtain ⟨st2, h2⟩ : ∃ st2,
      (fetchStep dir st1 (ownName buyer) (ownContactId buyer)).result = .ok st2 := by
    rcases fetchStep_result dir st1 (ownName buyer) (ownContactId buyer) with h | ⟨c, _, h⟩
    · exact ⟨_, h⟩
    · exact ⟨_, h⟩
  unfold resolveBuyer
  simp only [orDefault_of_not_nullish buyer _ hb, hb, Bool.false_eq_true, if_false]
  rw [andThen_of_ok _ _ st1 h1, andThen_of_ok _ _ st2 h2]
  simp [dirRequests_append, Run.ret, Run.dirRequests]

/-- Claim C18.  `resolveBuyer` issues at most one directory request in one resolution,
never both the query by email and the fetch by contact id, and none at all when the
candidate carries name material (first, last or name) together with an email. -/
theorem C18_resolveBuyer_one_request (dir : Directory N) (buyer : JSVal N) :
    Run.dirRequests (resolveBuyer dir buyer).effects ≤ 1 ∧
    (noNameMaterial (ownState (buyer.orDefault (.obj []))) (ownName (buyer.orDefault (.obj [])))
        = false →
      (ownState (buyer.orDefault (.obj []))).email.truthy = true →
      Run.dirRequests (resolveBuyer dir buyer).effects = 0) := by
  by_cases hb : (buyer.orDefault (.obj [])).nullish = true
  · have h0 : (resolveBuyer dir buyer).effects = [] := by
      unfold resolveBuyer
      simp [hb, Run.ofExcept]
    rw [h0]
    exact ⟨by simp [Run.dirRequests], fun _ _ => rfl⟩
  · have hb2 : (buyer.orDefault (.obj [])).nullish = false := by simpa using hb
    have hsame : resolveBuyer dir buyer = resolveBuyer dir (buyer.orDefault (.obj [])) := by
      unfold resolveBuyer
      rw [orDefault_of_not_nullish (buyer.orDefault (.obj [])) _ hb2]
    rw [hsame]
    generalize buyer.orDefault (.obj []) = b at hb2 ⊢
    obtain ⟨st1, _, h1, _, _⟩ := resolveBuyer_total dir b hb2
    rw [resolveBuyer_effects dir b hb2 st1 h1]
    obtain ⟨q1, q2, q3⟩ := queryStep_requests dir (ownState b) (ownName b) (ownContactId b)
    obtain ⟨f1, f2, f3⟩ := fetchStep_requests dir st1 (ownName b) (ownContactId b)
    constructor
    · cases hcid : (ownContactId b).truthy with
      | true => rw [q2 hcid]; omega
      | false => rw [f2 hcid]; omega
    · intro hn he
      have hq := q3 hn
      rw [hq] at h1
      have hst : st1 = ownState b := by
        simp only [Run.ret] at h1
        cases h1
        rfl
      subst hst
      rw [hq, f3 hn he]
      rfl

/-- Witness of C18: a candidate with a first name, an email and a contact id. -/
theorem C18_resolveBuyer_witness :
    Run.dirRequests (resolveBuyer anonDirectory (.obj [("firstName", .str "Ann"),
      ("email", .str "ann@x.com"), ("contactId", .str "c-3")])).effects = 0 :=
  (C18_resolveBuyer_one_request anonDirectory (.obj [("firstName", .str "Ann"),
    ("email", .str "ann@x.com"), ("contactId", .str "c-3")])).2 rfl rfl

end RequestTheorems

/-! ## Theorems: renewal cycles -/

section CycleTheorems

variable {N : Type} [JSHost N]

end CycleTheorems

/-! ## Theorems: invoices -/

section InvoiceTheorems

variable {N : Type} [JSHost N]

theorem getPath_through_number (inv : JSVal N) (n : N) (k1 k2 : String)
    (h : inv.prop k1 = .num n) : getPathKeys inv [k1, k2] = .ok .undefined := by
  rw [getPathKeys_cons]
  by_cases hi : inv.truthy = true
  · rw [if_pos hi, h, getPathKeys_cons]
    by_cases hn : (JSVal.num n : JSVal N).truthy = true
    · rw [if_pos hn]; rfl
    · rw [if_neg hn]; rfl
  · rw [if_neg hi]
    exact getPathKeys_undefined [k2]

/-- Claim C14 fails on the code: the amount cascade reads `amount.amount` and
`amount.value` only, which are `undefined` for every invoice whose `amount` is a bare
number; the invoice `{ id: "INV-1", amount: 25, currency: "USD" }` is dispatched with no
amount and shown as `0.00 USD`. -/
theorem C14_invoice_bare_amount_dropped :
    (∀ (inv : JSVal N) (n : N), inv.prop "amount" = .num n →
      getPath inv "amount.amount" = .ok .undefined ∧
      getPath inv "amount.value" = .ok .undefined) ∧
    (Run.dispatches (wixBilling_onInvoicePaid quietEnv (.obj [("invoice", .obj [
      ("id", .str "INV-1"), ("amount", lit 25), ("currency", .str "USD")])])).effects).map
        (fun a => (a.amount, a.currency, fmtMoney a.amount a.currency))
      = [(.undefined, .str "USD", "0.00 USD")] := by
  refine ⟨?_, rfl⟩
  intro inv n h
  have s1 : splitDots "amount.amount" = ["amount", "amount"] := by decide
  have s2 : splitDots "amount.value" = ["amount", "value"] := by decide
  exact ⟨by rw [getPath, s1]; exact getPath_through_number inv n _ _ h,
    by rw [getPath, s2]; exact getPath_through_number inv n _ _ h⟩

/-- Claim C19.  There is an invoice event whose alert takes its currency from
`paidAmount.currency` and its amount from `totalAmount.amount`, two different fields: the
two cascades are independent, and the currency of the field that gave the amount is not the
one shown. -/
theorem C19_invoice_amount_currency_sources :
    ∃ event : JSVal Int,
      getPath (invoiceOf event) "paidAmount.currency" = .ok (.str "USD") ∧
      getPath (invoiceOf event) "paidAmount.amount" = .ok .undefined ∧
      getPath (invoiceOf event) "totalAmount.amount" = .ok (lit 25) ∧
      getPath (invoiceOf event) "totalAmount.currency" = .ok (.str "EUR") ∧
      (Run.dispatches (wixBilling_onInvoicePaid quietEnv event).effects).map
        (fun a => (a.amount, a.currency)) = [(lit 25, .str "USD")] :=
  ⟨.obj [("invoice", .obj [("id", .str "INV-2"),
      ("paidAmount", .obj [("currency", .str "USD")]),
      ("totalAmount", .obj [("amount", lit 25), ("currency", .str "EUR")])])],
    rfl, rfl, rfl, rfl, rfl⟩

end InvoiceTheorems

end HTS
